import Mathlib

/-!
Verification development for the eratosthenes RSS-aggregation pipeline.

The definitions below are a shallow embedding of the pipeline code:

* `services/claude_filter.py` — `ClaudeFilter.filter_relevance_batch` and
  `ClaudeFilter._process_relevance_batch`, together with a model of the
  JSON document parsing (`json.loads`) they rely on;
* `services/feed_fetcher.py` — `FeedFetcher.fetch_feed` and
  `FeedFetcher.fetch_all_feeds`;
* `services/scheduler.py` — `ProcessingService.run_daily_processing`;
* the ORM row types of `models/feed_item.py`, `models/feed_source.py`
  and `models/processing_log.py`.

External effects (HTTP requests, the external classification call, the
feed-document parser) are modelled as oracle functions supplied as
arguments, so that every control path of the embedded code is covered by
quantifying over the oracle.  Machine-level aspects that no statement
here depends on (exact interpreter-generated exception strings, unicode
surrogate pairing in string escapes, the non-standard NaN and Infinity
literals accepted by the Python json module) are abstracted and noted at
the definition concerned.
-/

namespace Eratosthenes

/-! ### JSON values and a model of json.loads

`_process_relevance_batch` parses the classifier response with
`json.loads(response_text)`.  `Json` models the resulting Python value
(dicts keep their key-value pairs in order; a lookup takes the last
occurrence of a key, matching dict construction where later duplicate
keys win).  Numbers keep their source lexeme: no claim depends on
numeric values. -/

inductive Json where
  | null : Json
  | bool (b : Bool) : Json
  | num (lexeme : String) : Json
  | str (s : String) : Json
  | arr (elems : List Json) : Json
  | obj (fields : List (String × Json)) : Json
deriving Repr

/-- Lookup modelling Python dict.get with a default: last duplicate key
wins; on a non-object there is no get attribute (callers branch on
`Json.isObj` first). -/
def Json.getD (j : Json) (key : String) (dflt : Json) : Json :=
  match j with
  | .obj fields => (((fields.filter (fun p => p.1 = key)).getLast?).map (fun p => p.2)).getD dflt
  | _ => dflt

/-- Whether a parsed value is a Python dict (an object). -/
def Json.isObj : Json → Bool
  | .obj _ => true
  | _ => false

def hexVal (c : Char) : Option Nat :=
  if '0' ≤ c ∧ c ≤ '9' then some (c.toNat - '0'.toNat)
  else if 'a' ≤ c ∧ c ≤ 'f' then some (c.toNat - 'a'.toNat + 10)
  else if 'A' ≤ c ∧ c ≤ 'F' then some (c.toNat - 'A'.toNat + 10)
  else none

def isJsonWs (c : Char) : Bool :=
  c = ' ' || c = '\t' || c = '\n' || c = '\r'

def skipWs : List Char → List Char
  | [] => []
  | c :: cs => if isJsonWs c then skipWs cs else c :: cs

/-- Escape sequences inside a JSON string, after the backslash.  The
\u escape decodes four hex digits to the corresponding code point
(surrogate pairing is abstracted: no statement depends on it). -/
def parseEsc : List Char → Option (Char × List Char)
  | [] => none
  | c :: cs =>
    if c = '"' then some ('"', cs)
    else if c = '\\' then some ('\\', cs)
    else if c = '/' then some ('/', cs)
    else if c = 'b' then some ('\x08', cs)
    else if c = 'f' then some ('\x0c', cs)
    else if c = 'n' then some ('\n', cs)
    else if c = 'r' then some ('\r', cs)
    else if c = 't' then some ('\t', cs)
    else if c = 'u' then
      match cs with
      | a :: b :: c2 :: d :: cs2 =>
        match hexVal a, hexVal b, hexVal c2, hexVal d with
        | some x, some y, some z, some w =>
          some (Char.ofNat (((x * 16 + y) * 16 + z) * 16 + w), cs2)
        | _, _, _, _ => none
      | _ => none
    else none

/-- Body of a JSON string, after the opening quote.  Unescaped control
characters are rejected, as in the strict default of the Python json
module. -/
def parseStrAux (fuel : Nat) (acc : List Char) (s : List Char) : Option (String × List Char) :=
  match fuel, s with
  | 0, _ => none
  | _, [] => none
  | Nat.succ fuel, c :: cs =>
    if c = '"' then some (String.mk acc.reverse, cs)
    else if c = '\\' then
      match parseEsc cs with
      | some (ch, cs2) => parseStrAux fuel (ch :: acc) cs2
      | none => none
    else if c.toNat < 32 then none
    else parseStrAux fuel (c :: acc) cs

/-- A JSON number lexeme: optional minus, digits, optional fraction,
optional exponent.  The lexeme is kept verbatim.  (The non-standard
NaN and Infinity literals the Python module also accepts are abstracted
away; no claim involves numbers at all.) -/
def parseNum (s : List Char) : Option (String × List Char) :=
  let (neg, s1) : List Char × List Char :=
    match s with
    | '-' :: r => (['-'], r)
    | _ => ([], s)
  let (ds, s2) := s1.span (fun c => c.isDigit)
  if ds.isEmpty then none
  else
    let (frac, s3) : List Char × List Char :=
      match s2 with
      | '.' :: r =>
        let (fs, r2) := r.span (fun c => c.isDigit)
        if fs.isEmpty then ([], s2) else ('.' :: fs, r2)
      | _ => ([], s2)
    let (ex, s4) : List Char × List Char :=
      match s3 with
      | 'e' :: r =>
        let (sgn, r1) : List Char × List Char :=
          match r with
          | '+' :: r2 => (['+'], r2)
          | '-' :: r2 => (['-'], r2)
          | _ => ([], r)
        let (es, r2) := r1.span (fun c => c.isDigit)
        if es.isEmpty then ([], s3) else ('e' :: (sgn ++ es), r2)
      | 'E' :: r =>
        let (sgn, r1) : List Char × List Char :=
          match r with
          | '+' :: r2 => (['+'], r2)
          | '-' :: r2 => (['-'], r2)
          | _ => ([], r)
        let (es, r2) := r1.span (fun c => c.isDigit)
        if es.isEmpty then ([], s3) else ('E' :: (sgn ++ es), r2)
      | _ => ([], s3)
    some (String.mk (neg ++ ds ++ frac ++ ex), s4)

mutual

/-- One JSON value, fuel-bounded (the fuel passed at top level is ample
for any document of the given length). -/
def parseValue : Nat → List Char → Option (Json × List Char)
  | 0, _ => none
  | Nat.succ fuel, s =>
    match skipWs s with
    | [] => none
    | c :: cs =>
      if c = '"' then
        match parseStrAux (cs.length + 1) [] cs with
        | some (st, r) => some (Json.str st, r)
        | none => none
      else if c = '[' then
        match skipWs cs with
        | ']' :: r => some (Json.arr [], r)
        | s2 =>
          match parseElems fuel s2 with
          | some (es, r) => some (Json.arr es, r)
          | none => none
      else if c = '\x7b' then
        match skipWs cs with
        | '\x7d' :: r => some (Json.obj [], r)
        | s2 =>
          match parseFields fuel s2 with
          | some (fs, r) => some (Json.obj fs, r)
          | none => none
      else
        match c :: cs with
        | 't' :: 'r' :: 'u' :: 'e' :: r => some (Json.bool true, r)
        | 'f' :: 'a' :: 'l' :: 's' :: 'e' :: r => some (Json.bool false, r)
        | 'n' :: 'u' :: 'l' :: 'l' :: r => some (Json.null, r)
        | s3 =>
          match parseNum s3 with
          | some (lx, r) => some (Json.num lx, r)
          | none => none

/-- Comma-separated array elements up to the closing bracket. -/
def parseElems : Nat → List Char → Option (List Json × List Char)
  | 0, _ => none
  | Nat.succ fuel, s =>
    match parseValue fuel s with
    | none => none
    | some (v, r) =>
      match skipWs r with
      | ',' :: r2 =>
        match parseElems fuel r2 with
        | some (vs, r3) => some (v :: vs, r3)
        | none => none
      | ']' :: r2 => some ([v], r2)
      | _ => none

/-- Comma-separated object members up to the closing brace. -/
def parseFields : Nat → List Char → Option (List (String × Json) × List Char)
  | 0, _ => none
  | Nat.succ fuel, s =>
    match skipWs s with
    | '"' :: cs =>
      match parseStrAux (cs.length + 1) [] cs with
      | none => none
      | some (key, r) =>
        match skipWs r with
        | ':' :: r1 =>
          match parseValue fuel r1 with
          | none => none
          | some (v, r2) =>
            match skipWs r2 with
            | ',' :: r3 =>
              match parseFields fuel r3 with
              | some (fs, r4) => some ((key, v) :: fs, r4)
              | none => none
            | '\x7d' :: r3 => some ([(key, v)], r3)
            | _ => none
        | _ => none
    | _ => none

end

/-- Model of json.loads: parse one document and require only trailing
whitespace after it; any other outcome is a JSONDecodeError, modelled
as none. -/
def jsonLoads (text : String) : Option Json :=
  let s := text.toList
  match parseValue (2 * s.length + 2) s with
  | some (v, rest) => if (skipWs rest).isEmpty then some v else none
  | none => none

/-! ### Items

`FeedFetcher._extract_item_data` always produces a dict with exactly
the keys url, title, content, summary, published_date and
source_feed_id, so the item dicts that flow through the pipeline are
modelled as this record (timestamps are abstract clock ticks). -/

structure RawItem where
  url : String
  title : String
  content : Option String
  summary : Option String
  published_date : Option Nat
  source_feed_id : Nat
deriving Repr, DecidableEq

/-! ### ClaudeFilter (services/claude_filter.py)

The external call of `_process_relevance_batch` — building the prompt
and awaiting `client.messages.create` — is modelled by an oracle
producing, per batch, either a raised exception (with its message
str(e)) or the text of the response.  Prompt building itself cannot
raise on a `RawItem` (the one subscript, item["title"], always
exists), so the oracle is the only exception source. -/

inductive CallOutcome where
  | exn (msg : String) : CallOutcome
  | ok (text : String) : CallOutcome

/-- Text used where the Python code would raise an AttributeError
calling .get on a response element that is not a dict; the precise
interpreter-generated message is abstracted by this constant (no claim
depends on it). -/
def attributeErrorText : String := "AttributeError"

/-- How `_process_relevance_batch` consumes a response text: parse it
as JSON, require a list of the batch length, then pair each item with
result.get("is_relevant", False) and result.get("reasoning", "No
reasoning provided"); a JSONDecodeError yields the per-item batch
default (item, False, "JSON parse error"), and the ValueError raised on
a wrong shape or an AttributeError on a non-dict element are caught by
the generic handler, yielding (item, False, "API error: " + str(e)). -/
def respResults (items : List RawItem) (text : String) : List (RawItem × Json × Json) :=
  match jsonLoads text with
  | none => items.map (fun it => (it, Json.bool false, Json.str "JSON parse error"))
  | some (Json.arr rs) =>
    if rs.length = items.length then
      if rs.all (fun r => r.isObj) then
        (items.zip rs).map (fun p =>
          (p.1, p.2.getD "is_relevant" (Json.bool false),
                p.2.getD "reasoning" (Json.str "No reasoning provided")))
      else
        items.map (fun it =>
          (it, Json.bool false, Json.str ("API error: " ++ attributeErrorText)))
    else
      items.map (fun it =>
        (it, Json.bool false, Json.str "API error: Invalid response format from Claude API"))
  | some _ =>
    items.map (fun it =>
      (it, Json.bool false, Json.str "API error: Invalid response format from Claude API"))

/-- Model of `ClaudeFilter._process_relevance_batch`: a raised external
call is caught by the generic handler; otherwise the response text is
consumed by `respResults`. -/
def process_relevance_batch (call : List RawItem → CallOutcome) (items : List RawItem) :
    List (RawItem × Json × Json) :=
  match call items with
  | .exn msg => items.map (fun it => (it, Json.bool false, Json.str ("API error: " ++ msg)))
  | .ok text => respResults items text

/-- Loop body of `ClaudeFilter.filter_relevance_batch`: slices of ten
starting at offset off, each batch processed by its own external call
(the oracle is keyed by the Python loop index i).  The
surrounding try of the Python loop is modelled as unreachable because
`process_relevance_batch` is total, and the inter-batch
asyncio.sleep(1) has no observable effect on the result. -/
def filterBatches (call : Nat → List RawItem → CallOutcome) (off : Nat)
    (items : List RawItem) : List (RawItem × Json × Json) :=
  if items.isEmpty then []
  else
    process_relevance_batch (call off) (items.take 10) ++
      filterBatches call (off + 10) (items.drop 10)
termination_by items.length
decreasing_by
  cases items with
  | nil => simp at *
  | cons a l => simp [List.length_drop]; omega

/-- Model of `ClaudeFilter.filter_relevance_batch`. -/
def filter_relevance_batch (call : Nat → List RawItem → CallOutcome)
    (items : List RawItem) : List (RawItem × Json × Json) :=
  filterBatches call 0 items

/-- Failure of one response text: not parseable JSON, not an array, or
an array whose length differs from the batch length. -/
def respFailed (items : List RawItem) (text : String) : Bool :=
  match jsonLoads text with
  | none => true
  | some (Json.arr rs) => rs.length ≠ items.length
  | some _ => true

/-- The failure conditions named by the specification for one batch:
the external call raised, or its response text fails. -/
def batchCallFailed (call : List RawItem → CallOutcome) (items : List RawItem) : Bool :=
  match call items with
  | .exn _ => true
  | .ok text => respFailed items text

/-! ### FeedFetcher (services/feed_fetcher.py)

The network and the feed-document parser are modelled by an oracle:
`urlValid` is whether urlparse yields a scheme and a netloc,
and `http` returns none when awaiting the request raises (timeout,
connection error, ...) and otherwise the status code together with the
per-entry outcome of `_extract_item_data` (none when the entry lacks a
link or its extraction raised — both continue silently). -/

structure FetchWorld where
  urlValid : String → Bool
  http : String → Option (Nat × List (Option RawItem))

/-- Exceptions the fetcher itself can raise: only the RuntimeError
guarding use outside the async context manager; every exception inside
the try of fetch_feed is caught and turned into an empty list. -/
inductive PyError where
  | runtimeError : PyError
deriving Repr, DecidableEq

/-- Model of `FeedFetcher.fetch_feed`: the session guard raises before
any work; inside the try, an invalid URL raises a ValueError that the
generic handler turns into [], a non-200 status returns [], a raised
request (timeout or otherwise) returns [], and otherwise at most the
first fifty entries are extracted, dropping entries without a link. -/
def fetch_feed (w : FetchWorld) (sessionActive : Bool) (src : String) :
    Except PyError (List RawItem) :=
  if !sessionActive then .error .runtimeError
  else .ok (
    if !w.urlValid src then []
    else
      match w.http src with
      | none => []
      | some (status, entries) =>
        if status ≠ 200 then []
        else (entries.take 50).filterMap id)

/-- Model of `FeedFetcher.fetch_all_feeds`: the same session guard,
then every feed fetched and the results concatenated (gather with
return_exceptions skips exceptional results; with the session active,
fetch_feed never yields one). -/
def fetch_all_feeds (w : FetchWorld) (sessionActive : Bool) (srcs : List String) :
    Except PyError (List RawItem) :=
  if !sessionActive then .error .runtimeError
  else .ok (srcs.foldl (fun acc u =>
    acc ++ (match fetch_feed w true u with
            | .ok l => l
            | .error _ => [])) [])

/-! ### ORM rows (models/feed_source.py, models/feed_item.py,
models/processing_log.py)

Timestamps and dates are abstract clock ticks; every call of
datetime.utcnow() during a run advances the tick. -/

structure FeedSource where
  id : Nat
  feed_url : String
  name : String
  enabled : Bool
  last_fetched : Option Nat
deriving Repr, DecidableEq

structure FeedItem where
  url : String
  title : String
  content : String
  summary : String
  published_date : Option Nat
  source_feed_id : Nat
  is_relevant : Option Bool
  relevance_reasoning : Option String
  processed_at : Option Nat
deriving Repr, DecidableEq

structure ProcessingLog where
  run_date : Nat
  feeds_processed : Nat
  items_fetched : Nat
  items_relevant : Nat
  items_priority_suggested : Nat
  api_calls_made : Nat
  started_at : Option Nat
  completed_at : Option Nat
  status : String
  error_message : Option String
deriving Repr, DecidableEq

/-- Committed database contents seen by the scheduler. -/
structure DBState where
  sources : List FeedSource
  items : List FeedItem
  logs : List ProcessingLog
deriving Repr, DecidableEq

/-! ### ProcessingService.run_daily_processing (services/scheduler.py)

The two awaited service calls of the per-feed loop are oracles:

* the fetch step (scheduler.py line 73).  NOTE — the call as written,
  FeedFetcher.fetch_feed(feed_source.feed_url, max_items=...), does not
  match the signature of FeedFetcher.fetch_feed(self, feed_source); the
  oracle models whatever the awaited call produces for the URL of the
  feed, with .error for a raised exception (which the literal call
  would in fact always raise, a TypeError);
* the classification step (scheduler.py line 84).  Modelled from the
  spec: the called method ClaudeFilter.filter_relevance does not exist
  anywhere in the repository (ClaudeFilter defines only
  filter_relevance_batch, with a different result shape), while the
  scheduler consumes its result as dicts carrying is_relevant plus the
  item fields; following spec sections 4.2 and 4.4 the oracle returns
  per input item a record of the item fields, the boolean relevance
  flag and the rationale, or .error for a raised exception (the literal
  call would always raise an AttributeError). -/

structure ItemData where
  url : String
  title : String
  content : Option String
  summary : Option String
  published_date : Option Nat
  is_relevant : Bool
  reasoning : String
deriving Repr, DecidableEq

structure World where
  fetchResult : String → Except String (List RawItem)
  classifyResult : List RawItem → Except String (List ItemData)

/-- Accumulator of the per-feed loop: the feed_items table contents
(committed rows plus rows pending in the session — the dedup select
autoflushes, so both are visible to it) and the run counters. -/
structure RunAcc where
  stored : List FeedItem
  fetched : Nat
  relevant : Nat
  apiCalls : Nat
  tick : Nat
deriving Repr, DecidableEq

/-- Row built at scheduler.py lines 100 to 109: content and summary
default to the empty string, is_relevant is set to true, processed_at
to now — and relevance_reasoning is not among the assigned columns, so
it keeps its column default of null. -/
def mkFeedItem (fid : Nat) (t : Nat) (d : ItemData) : FeedItem :=
  { url := d.url
    title := d.title
    content := d.content.getD ""
    summary := d.summary.getD ""
    published_date := d.published_date
    source_feed_id := fid
    is_relevant := some true
    relevance_reasoning := none
    processed_at := some t }

/-- Inner loop at scheduler.py lines 88 to 111: for each classified
item, skip it unless is_relevant; then select by URL and only when no
row matches add a new row and count it. -/
def saveItems (fid : Nat) (ds : List ItemData) (acc : RunAcc) : RunAcc :=
  match ds with
  | [] => acc
  | d :: rest =>
    if !d.is_relevant then saveItems fid rest acc
    else if acc.stored.any (fun it => it.url = d.url) then saveItems fid rest acc
    else saveItems fid rest
      { acc with
        stored := acc.stored ++ [mkFeedItem fid acc.tick d]
        relevant := acc.relevant + 1
        tick := acc.tick + 1 }

/-- Outcome of the loop body for one feed: either an exception escaped
(aborting the whole loop — there is no per-feed handler), or the feed
was completed and the loop continues. -/
inductive FeedStep where
  | aborted (e : String) (acc : RunAcc) : FeedStep
  | done (f2 : FeedSource) (acc : RunAcc) : FeedStep
deriving Repr, DecidableEq

/-- Loop body at scheduler.py lines 69 to 117 for one feed: fetch
(line 73; a raised call aborts), count the fetched items, skip the rest
of the body when there are none (the continue at line 80), classify
(line 84; a raised call aborts), count one external call per slice of
ten, save the relevant new items, then set last_fetched and commit. -/
def bumpAcc (acc : RunAcc) (n : Nat) : RunAcc :=
  { acc with fetched := acc.fetched + n, apiCalls := acc.apiCalls + (n + 9) / 10 }

/-- The per-feed final commit advances the clock once for the
last_fetched assignment. -/
def commitAcc (a : RunAcc) : RunAcc :=
  { a with tick := a.tick + 1 }

def processFeed1 (w : World) (f : FeedSource) (acc : RunAcc) : FeedStep :=
  match w.fetchResult f.feed_url with
  | .error e => .aborted e acc
  | .ok raw =>
    let acc1 := { acc with fetched := acc.fetched + raw.length }
    if raw.isEmpty then .done f acc1
    else
      match w.classifyResult raw with
      | .error e => .aborted e acc1
      | .ok filtered =>
        let acc2 := { acc1 with apiCalls := acc1.apiCalls + (raw.length + 9) / 10 }
        let acc3 := saveItems f.id filtered acc2
        .done { f with last_fetched := some acc3.tick } { acc3 with tick := acc3.tick + 1 }

/-- Per-feed loop at scheduler.py lines 69 to 117.  The triple returned
is (the message of the escaping exception if any, the feed rows —
updated for the feeds that committed, followed by the untouched
remainder, the accumulator). -/
def processFeeds (w : World) (feeds : List FeedSource) (acc : RunAcc) :
    Option String × List FeedSource × RunAcc :=
  match feeds with
  | [] => (none, [], acc)
  | f :: rest =>
    match processFeed1 w f acc with
    | .aborted e acc2 => (some e, f :: rest, acc2)
    | .done f2 acc2 =>
      let (r, fs, a) := processFeeds w rest acc2
      (r, f2 :: fs, a)

/-- Feed selection at scheduler.py lines 52 to 54: enabled sources,
limited only when limit_feeds is truthy (None and 0 mean no limit). -/
def selectFeeds (limit_feeds : Option Nat) (sources : List FeedSource) : List FeedSource :=
  let enabled := sources.filter (fun s => s.enabled)
  match limit_feeds with
  | none => enabled
  | some n => if n = 0 then enabled else enabled.take n

/-- Write the mutated feed rows back over the sources table; rows are
keyed by the primary key id. -/
def mergeSources (orig : List FeedSource) (upd : List FeedSource) : List FeedSource :=
  orig.map (fun s => ((upd.find? (fun u => u.id = s.id)).getD s))

/-- Outcome of one invocation: a normal return, the IntegrityError of
the unique run_date constraint raised by the commit at line 48 (outside
the try, so nothing is caught and no record is created), or the
exception re-raised at line 141 after the record was marked failed. -/
inductive RunResult where
  | ok (st : DBState) : RunResult
  | integrityError (st : DBState) : RunResult
  | raised (msg : String) (st : DBState) : RunResult
deriving Repr, DecidableEq

/-- The ProcessingLog row created and committed at scheduler.py lines
37 to 48, before the try block. -/
def runningLog (today t0 : Nat) : ProcessingLog :=
  { run_date := today
    feeds_processed := 0
    items_fetched := 0
    items_relevant := 0
    items_priority_suggested := 0
    api_calls_made := 0
    started_at := some t0
    completed_at := none
    status := "running"
    error_message := none }

/-- The record after the success update at lines 119 to 126. -/
def successLog (today t0 nfeeds : Nat) (acc : RunAcc) : ProcessingLog :=
  { runningLog today t0 with
    feeds_processed := nfeeds
    items_fetched := acc.fetched
    items_relevant := acc.relevant
    api_calls_made := acc.apiCalls
    status := "success"
    completed_at := some acc.tick }

/-- The record after the exception handler at lines 136 to 141: status
failed and a completion time; the counters keep their initial zeroes
and error_message is not assigned. -/
def failedLog (today t0 : Nat) (acc : RunAcc) : ProcessingLog :=
  { runningLog today t0 with status := "failed", completed_at := some acc.tick }

/-- The loop accumulator at entry of the feed loop: the dedup select
sees the committed items, all counters start at zero. -/
def initAcc (t0 : Nat) (st : DBState) : RunAcc :=
  { stored := st.items, fetched := 0, relevant := 0, apiCalls := 0, tick := t0 + 1 }

/-- Model of `ProcessingService.run_daily_processing`.  today is the
run date, t0 the clock at entry.  The new ProcessingLog row is
committed first (status running; a row already present for the date
makes that commit raise the IntegrityError of the unique run_date
column, before the try block); the body processes each selected feed;
on success the record gets the final counters, status success and a
completion time; an exception escaping the body is caught once at
lines 136 to 141, the record is marked failed with a completion time —
its error_message column is not assigned — and the exception is
re-raised. -/
def run_daily_processing (w : World) (limit_feeds : Option Nat) (today t0 : Nat)
    (st : DBState) : RunResult :=
  if st.logs.any (fun l => l.run_date = today) then
    RunResult.integrityError st
  else
    match processFeeds w (selectFeeds limit_feeds st.sources) (initAcc t0 st) with
    | (none, feeds2, acc) =>
      RunResult.ok
        { sources := mergeSources st.sources feeds2
          items := acc.stored
          logs := st.logs ++
            [successLog today t0 (selectFeeds limit_feeds st.sources).length acc] }
    | (some e, feeds2, acc) =>
      RunResult.raised e
        { sources := mergeSources st.sources feeds2
          items := acc.stored
          logs := st.logs ++ [failedLog today t0 acc] }

/-- Database state carried by an outcome. -/
def RunResult.state : RunResult → DBState
  | .ok st => st
  | .integrityError st => st
  | .raised _ st => st

/-- The ProcessingLog row of a given run date (run_date is unique). -/
def todayLog (st : DBState) (d : Nat) : Option ProcessingLog :=
  st.logs.find? (fun l => l.run_date = d)

/-! ### Classifier lemmas -/

theorem map_pair_fst (items : List RawItem) (f : RawItem → Json × Json) :
    (items.map (fun it => (it, f it))).map Prod.fst = items := by
  rw [List.map_map]
  have hcomp : (Prod.fst ∘ fun it : RawItem => (it, f it)) = fun it => it :=
    funext fun it => rfl
  rw [hcomp]
  exact List.map_id' items

theorem process_exn (call : List RawItem → CallOutcome) (items : List RawItem)
    (m : String) (h : call items = CallOutcome.exn m) :
    process_relevance_batch call items =
      items.map (fun it => (it, Json.bool false, Json.str ("API error: " ++ m))) := by
  unfold process_relevance_batch
  rw [h]

theorem process_ok (call : List RawItem → CallOutcome) (items : List RawItem)
    (text : String) (h : call items = CallOutcome.ok text) :
    process_relevance_batch call items = respResults items text := by
  unfold process_relevance_batch
  rw [h]

theorem respResults_none (items : List RawItem) (text : String)
    (h : jsonLoads text = none) :
    respResults items text =
      items.map (fun it => (it, Json.bool false, Json.str "JSON parse error")) := by
  unfold respResults
  rw [h]

theorem respResults_arr (items : List RawItem) (text : String) (rs : List Json)
    (h : jsonLoads text = some (Json.arr rs)) :
    respResults items text =
      if rs.length = items.length then
        if rs.all (fun r => r.isObj) then
          (items.zip rs).map (fun p =>
            (p.1, p.2.getD "is_relevant" (Json.bool false),
                  p.2.getD "reasoning" (Json.str "No reasoning provided")))
        else
          items.map (fun it =>
            (it, Json.bool false, Json.str ("API error: " ++ attributeErrorText)))
      else
        items.map (fun it =>
          (it, Json.bool false, Json.str "API error: Invalid response format from Claude API")) := by
  unfold respResults
  rw [h]

theorem respResults_not_arr (items : List RawItem) (text : String) (j : Json)
    (h : jsonLoads text = some j) (hj : ∀ rs, j ≠ Json.arr rs) :
    respResults items text =
      items.map (fun it =>
        (it, Json.bool false, Json.str "API error: Invalid response format from Claude API")) := by
  unfold respResults
  rw [h]
  rcases j with _ | b | n | s | rs | fs
  · rfl
  · rfl
  · rfl
  · rfl
  · exact absurd rfl (hj rs)
  · rfl

theorem process_map_fst (call : List RawItem → CallOutcome) (items : List RawItem) :
    (process_relevance_batch call items).map Prod.fst = items := by
  rcases hc : call items with m | text
  · rw [process_exn call items m hc]
    exact map_pair_fst items _
  · rw [process_ok call items text hc]
    rcases h : jsonLoads text with _ | j
    · rw [respResults_none items text h]
      exact map_pair_fst items _
    · rcases j with _ | b | n | s | rs | fs
      · rw [respResults_not_arr items text _ h (fun _ hx => Json.noConfusion hx)]
        exact map_pair_fst items _
      · rw [respResults_not_arr items text _ h (fun _ hx => Json.noConfusion hx)]
        exact map_pair_fst items _
      · rw [respResults_not_arr items text _ h (fun _ hx => Json.noConfusion hx)]
        exact map_pair_fst items _
      · rw [respResults_not_arr items text _ h (fun _ hx => Json.noConfusion hx)]
        exact map_pair_fst items _
      · rw [respResults_arr items text rs h]
        by_cases hlen : rs.length = items.length
        · by_cases hobj : rs.all (fun r => r.isObj)
          · simp only [hlen, hobj, if_true, List.map_map]
            have hcomp : (Prod.fst ∘ fun p : RawItem × Json =>
                (p.1, p.2.getD "is_relevant" (Json.bool false),
                      p.2.getD "reasoning" (Json.str "No reasoning provided"))) = Prod.fst := by
              funext p; rfl
            rw [hcomp, List.map_fst_zip]
            omega
          · simp only [hlen, if_true, hobj, if_false, Bool.false_eq_true]
            exact map_pair_fst items _
        · simp only [hlen, if_false]
          exact map_pair_fst items _
      · rw [respResults_not_arr items text _ h (fun _ hx => Json.noConfusion hx)]
        exact map_pair_fst items _

theorem filterBatches_map_fst (call : Nat → List RawItem → CallOutcome) :
    ∀ (n : Nat) (items : List RawItem) (off : Nat), items.length ≤ n →
      (filterBatches call off items).map Prod.fst = items := by
  intro n
  induction n with
  | zero =>
    intro items off h
    have he : items = [] := List.eq_nil_of_length_eq_zero (Nat.le_zero.mp h)
    subst he
    rw [filterBatches]
    simp
  | succ n ih =>
    intro items off h
    by_cases he : items.isEmpty
    · rw [filterBatches]
      simp [he]
      exact List.isEmpty_iff.mp he
    · rw [filterBatches]
      simp only [he, if_false, Bool.false_eq_true, List.map_append]
      rw [process_map_fst, ih (items.drop 10) (off + 10) ?hlen]
      · exact List.take_append_drop 10 items
      case hlen =>
        have hpos : 0 < items.length := by
          cases items with
          | nil => simp at he
          | cons a l => simp
        rw [List.length_drop]
        omega

/-! ### Claim C4 -/

/-- C4: filter_relevance_batch returns exactly one result tuple per
input item, in input order, the tuple at index i carrying the item
submitted at index i — for every input length (covering 1, 10 and 11)
and every outcome of every external call, on the success path and on
every failure path. -/
theorem c4_batch_order_preserved (call : Nat → List RawItem → CallOutcome)
    (items : List RawItem) :
    (filter_relevance_batch call items).map Prod.fst = items :=
  filterBatches_map_fst call items.length items 0 le_rfl

/-! ### Claim C3 -/

/-- C3: whenever the external call for a batch fails — it raised, its
output is not parseable JSON, or the parsed value is not an array of
exactly the batch length — every item of the batch comes back with
relevance flag false and one shared rationale string recording the
failure, so no item of a failed batch is returned relevant. -/
theorem c3_failed_batch_all_not_relevant (call : List RawItem → CallOutcome)
    (items : List RawItem) (h : batchCallFailed call items = true) :
    (∃ msg, process_relevance_batch call items =
      items.map (fun it => (it, Json.bool false, Json.str msg))) ∧
    ∀ r ∈ process_relevance_batch call items, r.2.1 = Json.bool false := by
  have key : ∃ msg, process_relevance_batch call items =
      items.map (fun it => (it, Json.bool false, Json.str msg)) := by
    rcases hc : call items with m | text
    · exact ⟨_, process_exn call items m hc⟩
    · have hf : respFailed items text = true := by
        unfold batchCallFailed at h
        rw [hc] at h
        exact h
      rw [process_ok call items text hc]
      unfold respFailed at hf
      rcases hj : jsonLoads text with _ | j
      · exact ⟨_, respResults_none items text hj⟩
      · rw [hj] at hf
        rcases j with _ | b | n | s | rs | fs
        · exact ⟨_, respResults_not_arr items text _ hj (fun _ hx => Json.noConfusion hx)⟩
        · exact ⟨_, respResults_not_arr items text _ hj (fun _ hx => Json.noConfusion hx)⟩
        · exact ⟨_, respResults_not_arr items text _ hj (fun _ hx => Json.noConfusion hx)⟩
        · exact ⟨_, respResults_not_arr items text _ hj (fun _ hx => Json.noConfusion hx)⟩
        · have hne : rs.length ≠ items.length := of_decide_eq_true hf
          rw [respResults_arr items text rs hj]
          simp only [hne, if_false]
          exact ⟨_, rfl⟩
        · exact ⟨_, respResults_not_arr items text _ hj (fun _ hx => Json.noConfusion hx)⟩
  refine ⟨key, ?_⟩
  obtain ⟨msg, hm⟩ := key
  rw [hm]
  intro r hr
  rw [List.mem_map] at hr
  obtain ⟨it, _, rfl⟩ := hr
  rfl

/-- Concrete inputs for the C3 witness: a one-item batch whose external
call raises. -/
def itemC3 : RawItem :=
  { url := "http://a/1", title := "t1", content := none, summary := none,
    published_date := none, source_feed_id := 1 }

def callC3 : List RawItem → CallOutcome := fun _ => CallOutcome.exn "timeout"

/-- Witness for C3 at a concrete failing batch. -/
theorem c3_failed_batch_all_not_relevant_witness :
    batchCallFailed callC3 [itemC3] = true ∧
    ((∃ msg, process_relevance_batch callC3 [itemC3] =
        [itemC3].map (fun it => (it, Json.bool false, Json.str msg))) ∧
      ∀ r ∈ process_relevance_batch callC3 [itemC3], r.2.1 = Json.bool false) :=
  ⟨rfl, c3_failed_batch_all_not_relevant callC3 [itemC3] rfl⟩

/-! ### Claim C8 -/

/-- A classifier response wrapped in markdown-style fence markers, and
the same JSON array with the wrappers removed. -/
def wrappedText : String :=
  "```json\n[\x7b\"is_relevant\": true, \"reasoning\": \"ok\"\x7d]\n```"

def strippedText : String :=
  "[\x7b\"is_relevant\": true, \"reasoning\": \"ok\"\x7d]"

def itemC8 : RawItem :=
  { url := "http://a/8", title := "t8", content := none, summary := none,
    published_date := none, source_feed_id := 1 }

/-- C8 counterexample: no wrapper markers are stripped before parsing.
A response that is a valid one-element JSON array surrounded by fence
markers is treated as a total batch failure (JSON parse error, item not
relevant), even though the text inside the wrappers parses to an array
of exactly the batch length whose element is relevant. -/
theorem c8_wrapped_json_not_stripped :
    process_relevance_batch (fun _ => CallOutcome.ok wrappedText) [itemC8] =
      [(itemC8, Json.bool false, Json.str "JSON parse error")] ∧
    jsonLoads strippedText =
      some (Json.arr [Json.obj
        [("is_relevant", Json.bool true), ("reasoning", Json.str "ok")]]) :=
  ⟨rfl, rfl⟩

/-- C8 amended: the classifier parses the raw response text as-is,
performing no stripping of wrapper markers; any response text that is
not itself parseable JSON — including a parseable array surrounded by
wrapper markers — is treated as total batch failure, every item of the
batch returned not relevant with rationale JSON parse error. -/
theorem c8_raw_parse_only (call : List RawItem → CallOutcome) (items : List RawItem)
    (text : String) (hcall : call items = CallOutcome.ok text)
    (hparse : jsonLoads text = none) :
    process_relevance_batch call items =
      items.map (fun it => (it, Json.bool false, Json.str "JSON parse error")) := by
  rw [process_ok call items text hcall]
  exact respResults_none items text hparse

/-- Witness for the amended C8 at the wrapped response. -/
theorem c8_raw_parse_only_witness :
    jsonLoads wrappedText = none ∧
    process_relevance_batch (fun _ => CallOutcome.ok wrappedText) [itemC8] =
      [itemC8].map (fun it => (it, Json.bool false, Json.str "JSON parse error")) :=
  ⟨rfl, c8_raw_parse_only (fun _ => CallOutcome.ok wrappedText) [itemC8] wrappedText rfl rfl⟩

/-! ### Claim C7 -/

/-- C7: with the fetcher inside its async context (the entered session
that claim C10 treats separately), fetch_feed never raises and never
returns more than fifty items, and each of the enumerated error cases —
invalid URL, raised request such as a timeout, non-200 status — yields
an empty list rather than an error. -/
theorem c7_fetch_no_raise_cap50 (w : FetchWorld) (src : String) :
    (∃ items, fetch_feed w true src = Except.ok items ∧ items.length ≤ 50) ∧
    (w.urlValid src = false → fetch_feed w true src = Except.ok []) ∧
    (w.http src = none → fetch_feed w true src = Except.ok []) ∧
    (∀ status entries, w.http src = some (status, entries) → status ≠ 200 →
      fetch_feed w true src = Except.ok []) := by
  refine ⟨?_, ?_, ?_, ?_⟩
  · unfold fetch_feed
    simp only [Bool.not_true, if_false, Bool.false_eq_true]
    refine ⟨_, rfl, ?_⟩
    by_cases hv : w.urlValid src
    · simp only [hv, Bool.not_true]
      rcases hh : w.http src with _ | ⟨status, entries⟩
      · simp
      · simp only []
        by_cases hs : status ≠ 200
        · simp [hs]
        · simp only [hs, if_false]
          calc ((entries.take 50).filterMap id).length
              ≤ (entries.take 50).length := List.length_filterMap_le id (entries.take 50)
            _ ≤ 50 := by rw [List.length_take]; omega
    · simp [hv]
  · intro hv
    simp [fetch_feed, hv]
  · intro hh
    unfold fetch_feed
    by_cases hv : w.urlValid src <;> simp [hv, hh]
  · intro status entries hh hs
    unfold fetch_feed
    by_cases hv : w.urlValid src <;> simp [hv, hh, hs]

/-- Concrete fetch worlds for the C7 witness: one with an invalid URL
and no network, one with a server answering 500. -/
def fwInvalid : FetchWorld := { urlValid := fun _ => false, http := fun _ => none }

def fwServer500 : FetchWorld := { urlValid := fun _ => true, http := fun _ => some (500, []) }

/-- Witness for C7 at two concrete worlds, discharging each error-case
hypothesis. -/
theorem c7_fetch_no_raise_cap50_witness :
    fetch_feed fwInvalid true "u" = Except.ok [] ∧
    fetch_feed fwInvalid true "u" = Except.ok [] ∧
    fetch_feed fwServer500 true "u" = Except.ok [] ∧
    (∃ items, fetch_feed fwServer500 true "u" = Except.ok items ∧ items.length ≤ 50) :=
  ⟨(c7_fetch_no_raise_cap50 fwInvalid "u").2.1 rfl,
   (c7_fetch_no_raise_cap50 fwInvalid "u").2.2.1 rfl,
   (c7_fetch_no_raise_cap50 fwServer500 "u").2.2.2 500 [] rfl (by omega),
   (c7_fetch_no_raise_cap50 fwServer500 "u").1⟩

/-! ### Scheduler lemmas -/

theorem find?_append_of_none {α : Type} (p : α → Bool) (l₁ l₂ : List α)
    (h : ∀ x ∈ l₁, p x = false) : (l₁ ++ l₂).find? p = l₂.find? p := by
  induction l₁ with
  | nil => rfl
  | cons a l ih =>
    rw [List.cons_append, List.find?_cons_of_neg]
    · exact ih (fun x hx => h x (List.mem_cons_of_mem a hx))
    · rw [h a (List.mem_cons_self a l)]
      exact Bool.false_ne_true

theorem todayLog_last (logs : List ProcessingLog) (lg : ProcessingLog) (d : Nat)
    (h : ∀ l ∈ logs, l.run_date ≠ d) (hd : lg.run_date = d) :
    (logs ++ [lg]).find? (fun l => l.run_date = d) = some lg := by
  rw [find?_append_of_none]
  · rw [List.find?_cons_of_pos]
    simp [hd]
  · intro x hx
    simp [h x hx]

theorem any_date_false {logs : List ProcessingLog} {d : Nat}
    (h : ∀ l ∈ logs, l.run_date ≠ d) :
    logs.any (fun l => l.run_date = d) = false := by
  rw [List.any_eq_false]
  intro x hx
  simpa using h x hx

theorem run_eq_integrity (w : World) (limit : Option Nat) (today t0 : Nat) (st : DBState)
    (h : st.logs.any (fun l => l.run_date = today) = true) :
    run_daily_processing w limit today t0 st = RunResult.integrityError st := by
  unfold run_daily_processing
  rw [h]
  rfl

theorem run_eq_ok (w : World) (limit : Option Nat) (today t0 : Nat) (st : DBState)
    (feeds2 : List FeedSource) (acc : RunAcc)
    (h : st.logs.any (fun l => l.run_date = today) = false)
    (hp : processFeeds w (selectFeeds limit st.sources) (initAcc t0 st) =
      (none, feeds2, acc)) :
    run_daily_processing w limit today t0 st = RunResult.ok
      { sources := mergeSources st.sources feeds2
        items := acc.stored
        logs := st.logs ++ [successLog today t0 (selectFeeds limit st.sources).length acc] } := by
  unfold run_daily_processing
  rw [h, hp]
  rfl

theorem run_eq_raised (w : World) (limit : Option Nat) (today t0 : Nat) (st : DBState)
    (e : String) (feeds2 : List FeedSource) (acc : RunAcc)
    (h : st.logs.any (fun l => l.run_date = today) = false)
    (hp : processFeeds w (selectFeeds limit st.sources) (initAcc t0 st) =
      (some e, feeds2, acc)) :
    run_daily_processing w limit today t0 st = RunResult.raised e
      { sources := mergeSources st.sources feeds2
        items := acc.stored
        logs := st.logs ++ [failedLog today t0 acc] } := by
  unfold run_daily_processing
  rw [h, hp]
  rfl

theorem processFeed1_fetch_err (w : World) (f : FeedSource) (acc : RunAcc) (e : String)
    (hf : w.fetchResult f.feed_url = Except.error e) :
    processFeed1 w f acc = FeedStep.aborted e acc := by
  unfold processFeed1
  rw [hf]

theorem processFeed1_empty (w : World) (f : FeedSource) (acc : RunAcc) (raw : List RawItem)
    (hf : w.fetchResult f.feed_url = Except.ok raw) (hraw : raw.isEmpty = true) :
    processFeed1 w f acc = FeedStep.done f { acc with fetched := acc.fetched + raw.length } := by
  unfold processFeed1
  split
  · next e heq =>
    rw [hf] at heq
    exact Except.noConfusion heq
  · next raw2 heq =>
    rw [hf] at heq
    cases heq
    simp [hraw]

theorem processFeed1_classify_err (w : World) (f : FeedSource) (acc : RunAcc)
    (raw : List RawItem) (e : String)
    (hf : w.fetchResult f.feed_url = Except.ok raw) (hraw : raw.isEmpty = false)
    (hc : w.classifyResult raw = Except.error e) :
    processFeed1 w f acc =
      FeedStep.aborted e { acc with fetched := acc.fetched + raw.length } := by
  unfold processFeed1
  split
  · next e2 heq =>
    rw [hf] at heq
    exact Except.noConfusion heq
  · next raw2 heq =>
    rw [hf] at heq
    cases heq
    simp only [hraw, if_false, Bool.false_eq_true]
    split
    · next e2 heq2 =>
      rw [hc] at heq2
      cases heq2
      rfl
    · next filtered heq2 =>
      rw [hc] at heq2
      exact Except.noConfusion heq2

theorem processFeed1_classify_ok (w : World) (f : FeedSource) (acc : RunAcc)
    (raw : List RawItem) (filtered : List ItemData)
    (hf : w.fetchResult f.feed_url = Except.ok raw) (hraw : raw.isEmpty = false)
    (hc : w.classifyResult raw = Except.ok filtered) :
    processFeed1 w f acc =
      FeedStep.done
        { f with last_fetched := some (saveItems f.id filtered (bumpAcc acc raw.length)).tick }
        (commitAcc (saveItems f.id filtered (bumpAcc acc raw.length))) := by
  unfold processFeed1
  split
  · next e2 heq =>
    rw [hf] at heq
    exact Except.noConfusion heq
  · next raw2 heq =>
    rw [hf] at heq
    cases heq
    simp only [hraw, if_false, Bool.false_eq_true]
    split
    · next e2 heq2 =>
      rw [hc] at heq2
      exact Except.noConfusion heq2
    · next filtered2 heq2 =>
      rw [hc] at heq2
      cases heq2
      rfl

theorem processFeeds_nil (w : World) (acc : RunAcc) :
    processFeeds w [] acc = (none, [], acc) := rfl

theorem processFeeds_cons_aborted (w : World) (f : FeedSource) (rest : List FeedSource)
    (acc acc2 : RunAcc) (e : String)
    (h : processFeed1 w f acc = FeedStep.aborted e acc2) :
    processFeeds w (f :: rest) acc = (some e, f :: rest, acc2) := by
  unfold processFeeds
  rw [h]

theorem processFeeds_cons_done (w : World) (f f2 : FeedSource) (rest : List FeedSource)
    (acc acc2 : RunAcc) (r : Option String) (fs : List FeedSource) (a : RunAcc)
    (h : processFeed1 w f acc = FeedStep.done f2 acc2)
    (hrest : processFeeds w rest acc2 = (r, fs, a)) :
    processFeeds w (f :: rest) acc = (r, f2 :: fs, a) := by
  unfold processFeeds
  rw [h]
  show (match processFeeds w rest acc2 with
        | (r2, fs2, a2) => (r2, f2 :: fs2, a2)) = (r, f2 :: fs, a)
  rw [hrest]

/-! ### Claim C9 -/

/-- A completed earlier run on date 5, and a world whose services would
all succeed. -/
def logC9 : ProcessingLog :=
  { run_date := 5, feeds_processed := 1, items_fetched := 0, items_relevant := 0,
    items_priority_suggested := 0, api_calls_made := 0, started_at := some 0,
    completed_at := some 1, status := "success", error_message := none }

def stC9 : DBState := { sources := [], items := [], logs := [logC9] }

def wC9 : World :=
  { fetchResult := fun _ => Except.ok [], classifyResult := fun _ => Except.ok [] }

/-- C9 counterexample: invoked a second time on date 5, for which a run
record exists, run_daily_processing crashes — the initial commit of the
new record violates the unique run_date constraint and the raised
IntegrityError escapes (it is raised before the try block), leaving the
database unchanged. -/
theorem c9_second_run_crashes :
    run_daily_processing wC9 none 5 10 stC9 = RunResult.integrityError stC9 := rfl

/-- C9 amended: a second invocation on a calendar date that already has
a run record does crash: the commit of the new ProcessingLog row raises
the IntegrityError of the unique run_date constraint before the try
block, so no new record is created and the database is unchanged. -/
theorem c9_duplicate_date_raises (w : World) (limit : Option Nat) (today t0 : Nat)
    (st : DBState) (h : ∃ l ∈ st.logs, l.run_date = today) :
    run_daily_processing w limit today t0 st = RunResult.integrityError st := by
  apply run_eq_integrity
  rw [List.any_eq_true]
  obtain ⟨l, hl, hd⟩ := h
  exact ⟨l, hl, by simp [hd]⟩

/-- Witness for the amended C9 at the concrete duplicate date. -/
theorem c9_duplicate_date_raises_witness :
    (∃ l ∈ stC9.logs, l.run_date = 5) ∧
    run_daily_processing wC9 none 5 10 stC9 = RunResult.integrityError stC9 :=
  ⟨⟨logC9, by simp [stC9], rfl⟩,
   c9_duplicate_date_raises wC9 none 5 10 stC9 ⟨logC9, by simp [stC9], rfl⟩⟩

/-! ### Claim C1 -/

/-- C1 under its amendment: a run on a fresh date always drives its
record to a terminal status — success on normal return, failed with a
completion timestamp when an exception escapes the per-feed body, in
which case the exception is re-raised (carried by RunResult.raised);
the record is never left with status running, whichever way
run_daily_processing returns or raises. -/
theorem c1_run_terminal_status (w : World) (limit : Option Nat) (today t0 : Nat)
    (st : DBState) (h : ∀ l ∈ st.logs, l.run_date ≠ today) :
    (∀ st2, run_daily_processing w limit today t0 st = RunResult.ok st2 →
      ∃ l, todayLog st2 today = some l ∧ l.status = "success" ∧ l.completed_at.isSome = true) ∧
    (∀ e st2, run_daily_processing w limit today t0 st = RunResult.raised e st2 →
      ∃ l, todayLog st2 today = some l ∧ l.status = "failed" ∧ l.completed_at.isSome = true) ∧
    (∀ st2, run_daily_processing w limit today t0 st = RunResult.integrityError st2 → False) ∧
    (∀ l, todayLog (run_daily_processing w limit today t0 st).state today = some l →
      l.status ≠ "running") := by
  have hany := any_date_false h
  rcases hp : processFeeds w (selectFeeds limit st.sources) (initAcc t0 st) with ⟨err, feeds2, acc⟩
  rcases err with _ | e
  · have hr := run_eq_ok w limit today t0 st feeds2 acc hany hp
    refine ⟨?_, ?_, ?_, ?_⟩
    · intro st2 he
      rw [hr] at he
      cases he
      refine ⟨successLog today t0 (selectFeeds limit st.sources).length acc, ?_, rfl, rfl⟩
      exact todayLog_last st.logs _ today h rfl
    · intro e st2 he
      rw [hr] at he
      exact RunResult.noConfusion he
    · intro st2 he
      rw [hr] at he
      exact RunResult.noConfusion he
    · intro l hl
      rw [hr] at hl
      have hfind := todayLog_last st.logs
        (successLog today t0 (selectFeeds limit st.sources).length acc) today h rfl
      unfold todayLog at hl
      simp only [RunResult.state] at hl
      rw [hfind] at hl
      cases hl
      simp [successLog, runningLog]
  · have hr := run_eq_raised w limit today t0 st e feeds2 acc hany hp
    refine ⟨?_, ?_, ?_, ?_⟩
    · intro st2 he
      rw [hr] at he
      exact RunResult.noConfusion he
    · intro e2 st2 he
      rw [hr] at he
      cases he
      refine ⟨failedLog today t0 acc, ?_, rfl, rfl⟩
      exact todayLog_last st.logs _ today h rfl
    · intro st2 he
      rw [hr] at he
      exact RunResult.noConfusion he
    · intro l hl
      rw [hr] at hl
      have hfind := todayLog_last st.logs (failedLog today t0 acc) today h rfl
      unfold todayLog at hl
      simp only [RunResult.state] at hl
      rw [hfind] at hl
      cases hl
      simp [failedLog, runningLog]

/-- One enabled source whose items fetch but whose classification call
raises. -/
def srcC1 : FeedSource :=
  { id := 1, feed_url := "http://feedA", name := "A", enabled := true, last_fetched := none }

def rawC1 : RawItem :=
  { url := "http://a/1", title := "t1", content := none, summary := none,
    published_date := none, source_feed_id := 1 }

def wC1 : World :=
  { fetchResult := fun _ => Except.ok [rawC1], classifyResult := fun _ => Except.error "boom" }

def stC1 : DBState := { sources := [srcC1], items := [], logs := [] }

/-- The record left by that failing run: status failed, completion time
set, counters at their initial zeroes, and error_message still null. -/
def logC1f : ProcessingLog :=
  { run_date := 7, feeds_processed := 0, items_fetched := 0, items_relevant := 0,
    items_priority_suggested := 0, api_calls_made := 0, started_at := some 0,
    completed_at := some 1, status := "failed", error_message := none }

/-- C1 counterexample: when the exception boom escapes the per-feed
body, the record is marked failed and the exception re-raised — but the
error message is not recorded: the error_message column of the record
stays null, against the claim that the record is set to FAILED with the
error message. -/
theorem c1_error_message_not_recorded :
    run_daily_processing wC1 none 7 0 stC1 =
      RunResult.raised "boom" { sources := [srcC1], items := [], logs := [logC1f] } ∧
    logC1f.status = "failed" ∧ logC1f.error_message = none :=
  ⟨rfl, rfl, rfl⟩

/-- Empty database and an all-green world for the C1 witness. -/
def stC1e : DBState := { sources := [], items := [], logs := [] }

def wC1e : World :=
  { fetchResult := fun _ => Except.ok [], classifyResult := fun _ => Except.ok [] }

/-- Witness for the amended C1 at the concrete fresh-date run. -/
theorem c1_run_terminal_status_witness :
    ∃ l, todayLog ((run_daily_processing wC1e none 3 0 stC1e).state) 3 = some l ∧
      l.status = "success" ∧ l.completed_at.isSome = true :=
  (c1_run_terminal_status wC1e none 3 0 stC1e (by simp [stC1e])).1
    ((run_daily_processing wC1e none 3 0 stC1e).state) rfl

/-! ### Claim C2 -/

/-- Two enabled sources; the classification call for the first raises,
the second has one relevant item. -/
def srcC2a : FeedSource :=
  { id := 1, feed_url := "http://f1", name := "F1", enabled := true, last_fetched := none }

def srcC2b : FeedSource :=
  { id := 2, feed_url := "http://f2", name := "F2", enabled := true, last_fetched := none }

def rawC2a : RawItem :=
  { url := "http://f1/x", title := "x", content := none, summary := none,
    published_date := none, source_feed_id := 1 }

def rawC2b : RawItem :=
  { url := "http://f2/y", title := "y", content := none, summary := none,
    published_date := none, source_feed_id := 2 }

def dC2b : ItemData :=
  { url := "http://f2/y", title := "y", content := none, summary := none,
    published_date := none, is_relevant := true, reasoning := "relevant" }

def wC2 : World :=
  { fetchResult := fun u =>
      if u = "http://f1" then Except.ok [rawC2a] else Except.ok [rawC2b]
    classifyResult := fun raw =>
      if raw = [rawC2a] then Except.error "API down" else Except.ok [dC2b] }

def stC2 : DBState := { sources := [srcC2a, srcC2b], items := [], logs := [] }

def logC2f : ProcessingLog :=
  { run_date := 9, feeds_processed := 0, items_fetched := 0, items_relevant := 0,
    items_priority_suggested := 0, api_calls_made := 0, started_at := some 0,
    completed_at := some 1, status := "failed", error_message := none }

/-- C2 counterexample: the classification exception of the first source
is not caught per-source — the run aborts, the second source is never
processed (its relevant item is not persisted: items stays empty), and
the record ends failed, not SUCCESS. -/
theorem c2_source_failure_aborts_run :
    run_daily_processing wC2 none 9 0 stC2 =
      RunResult.raised "API down"
        { sources := [srcC2a, srcC2b], items := [], logs := [logC2f] } ∧
    logC2f.status = "failed" ∧
    wC2.classifyResult [rawC2b] = Except.ok [dC2b] ∧
    dC2b.is_relevant = true :=
  ⟨rfl, rfl, rfl, rfl⟩

/-- C2 amended: there is no per-source exception handler in the
scheduler loop.  An exception raised by the fetch call or the
classification call of a source aborts the run at that source: the run
record ends failed, the exception is re-raised, and nothing from the
remaining sources (nor from the failing one) is persisted — the items
table is exactly as before the run when the first selected source
fails.  Only failures absorbed inside the services themselves (the
fetcher returning an empty list, the classifier returning not-relevant
defaults) leave the run on its success path. -/
theorem c2_no_per_source_isolation (w : World) (limit : Option Nat) (today t0 : Nat)
    (st : DBState) (f : FeedSource) (rest : List FeedSource) (e : String)
    (hsel : selectFeeds limit st.sources = f :: rest)
    (hfresh : ∀ l ∈ st.logs, l.run_date ≠ today)
    (hfail : w.fetchResult f.feed_url = Except.error e ∨
      ∃ raw, w.fetchResult f.feed_url = Except.ok raw ∧ raw ≠ [] ∧
        w.classifyResult raw = Except.error e) :
    ∃ st2, run_daily_processing w limit today t0 st = RunResult.raised e st2 ∧
      st2.items = st.items ∧
      (todayLog st2 today).map (fun l => l.status) = some "failed" := by
  have hany := any_date_false hfresh
  have hstep : ∃ acc2, processFeed1 w f (initAcc t0 st) = FeedStep.aborted e acc2 ∧
      acc2.stored = st.items := by
    rcases hfail with hferr | ⟨raw, hfok, hne, hcerr⟩
    · exact ⟨initAcc t0 st, processFeed1_fetch_err w f (initAcc t0 st) e hferr, rfl⟩
    · have hraw : raw.isEmpty = false := by
        cases raw with
        | nil => exact absurd rfl hne
        | cons a l => rfl
      exact ⟨_, processFeed1_classify_err w f (initAcc t0 st) raw e hfok hraw hcerr, rfl⟩
  obtain ⟨acc2, hstep1, hstored⟩ := hstep
  have hp : processFeeds w (selectFeeds limit st.sources) (initAcc t0 st) =
      (some e, f :: rest, acc2) := by
    rw [hsel]
    exact processFeeds_cons_aborted w f rest (initAcc t0 st) acc2 e hstep1
  have hr := run_eq_raised w limit today t0 st e (f :: rest) acc2 hany hp
  refine ⟨_, hr, hstored, ?_⟩
  show (((st.logs ++ [failedLog today t0 acc2]).find?
      (fun l => l.run_date = today)).map (fun l => l.status)) = some "failed"
  rw [todayLog_last st.logs (failedLog today t0 acc2) today hfresh rfl]
  rfl

/-- Witness for the amended C2 at the concrete two-source run. -/
theorem c2_no_per_source_isolation_witness :
    ∃ st2, run_daily_processing wC2 none 9 0 stC2 = RunResult.raised "API down" st2 ∧
      st2.items = stC2.items ∧
      (todayLog st2 9).map (fun l => l.status) = some "failed" :=
  c2_no_per_source_isolation wC2 none 9 0 stC2 srcC2a [srcC2b] "API down" rfl
    (by intro l hl; simp [stC2] at hl)
    (Or.inr ⟨[rawC2a], rfl, by simp, rfl⟩)

/-! ### Claim C6 -/

/-- One enabled source with one relevant new item carrying a
classification rationale. -/
def srcC6 : FeedSource :=
  { id := 3, feed_url := "http://fd", name := "D", enabled := true, last_fetched := none }

def rawC6 : RawItem :=
  { url := "http://fd/1", title := "d1", content := some "c", summary := some "s",
    published_date := some 11, source_feed_id := 3 }

def dC6 : ItemData :=
  { url := "http://fd/1", title := "d1", content := some "c", summary := some "s",
    published_date := some 11, is_relevant := true, reasoning := "clearly infosec" }

def wC6 : World :=
  { fetchResult := fun _ => Except.ok [rawC6], classifyResult := fun _ => Except.ok [dC6] }

def stC6 : DBState := { sources := [srcC6], items := [], logs := [] }

/-- The row the run creates for that item: relevance flag true and a
processing timestamp, but a null relevance_reasoning. -/
def itemC6 : FeedItem :=
  { url := "http://fd/1", title := "d1", content := "c", summary := "s",
    published_date := some 11, source_feed_id := 3, is_relevant := some true,
    relevance_reasoning := none, processed_at := some 1 }

def srcC6f : FeedSource :=
  { id := 3, feed_url := "http://fd", name := "D", enabled := true, last_fetched := some 2 }

def logC6s : ProcessingLog :=
  { run_date := 4, feeds_processed := 1, items_fetched := 1, items_relevant := 1,
    items_priority_suggested := 0, api_calls_made := 1, started_at := some 0,
    completed_at := some 3, status := "success", error_message := none }

/-- C6 counterexample: the classifier returned the rationale clearly
infosec for the relevant item, yet the stored row carries
relevance_reasoning null — the rationale is not persisted, against the
claim that the created item carries the classification rationale. -/
theorem c6_rationale_not_stored :
    run_daily_processing wC6 none 4 0 stC6 =
      RunResult.ok { sources := [srcC6f], items := [itemC6], logs := [logC6s] } ∧
    dC6.reasoning = "clearly infosec" ∧
    itemC6.relevance_reasoning = none ∧
    itemC6.is_relevant = some true ∧
    itemC6.processed_at = some 1 :=
  ⟨rfl, rfl, rfl, rfl, rfl⟩

/-- C6 amended: for every relevant item whose URL is not already
stored, the gateway creates a stored row carrying the item fields, the
source reference, relevance flag true and a processing timestamp — but
not the classification rationale: relevance_reasoning is left null. -/
theorem c6_new_item_fields (fid t : Nat) (d : ItemData) (acc : RunAcc) (ds : List ItemData)
    (hrel : d.is_relevant = true)
    (hnew : acc.stored.any (fun it => it.url = d.url) = false) :
    saveItems fid (d :: ds) acc =
      saveItems fid ds
        { acc with
          stored := acc.stored ++ [mkFeedItem fid acc.tick d]
          relevant := acc.relevant + 1
          tick := acc.tick + 1 } ∧
    (mkFeedItem fid t d).url = d.url ∧
    (mkFeedItem fid t d).title = d.title ∧
    (mkFeedItem fid t d).content = d.content.getD "" ∧
    (mkFeedItem fid t d).summary = d.summary.getD "" ∧
    (mkFeedItem fid t d).published_date = d.published_date ∧
    (mkFeedItem fid t d).source_feed_id = fid ∧
    (mkFeedItem fid t d).is_relevant = some true ∧
    (mkFeedItem fid t d).processed_at = some t ∧
    (mkFeedItem fid t d).relevance_reasoning = none := by
  refine ⟨?_, rfl, rfl, rfl, rfl, rfl, rfl, rfl, rfl, rfl⟩
  conv_lhs => unfold saveItems
  simp [hrel, hnew]

/-- Accumulator for the C6 witness. -/
def accC6w : RunAcc :=
  { stored := [], fetched := 0, relevant := 0, apiCalls := 0, tick := 5 }

/-- Witness for the amended C6 at a concrete relevant fresh item. -/
theorem c6_new_item_fields_witness :
    saveItems 3 [dC6] accC6w =
      saveItems 3 []
        { accC6w with
          stored := accC6w.stored ++ [mkFeedItem 3 accC6w.tick dC6]
          relevant := accC6w.relevant + 1
          tick := accC6w.tick + 1 } ∧
    (mkFeedItem 3 5 dC6).relevance_reasoning = none :=
  ⟨(c6_new_item_fields 3 5 dC6 accC6w [] rfl rfl).1,
   (c6_new_item_fields 3 5 dC6 accC6w [] rfl rfl).2.2.2.2.2.2.2.2.2⟩

/-! ### Claim C5 -/

/-- The run only ever rewrites the last_fetched watermark of a source
row; two rows agreeing on id, URL and enabled flag are processed
identically. -/
def SameKey (f g : FeedSource) : Prop :=
  f.id = g.id ∧ f.feed_url = g.feed_url ∧ f.enabled = g.enabled

theorem SameKey.rfl (f : FeedSource) : SameKey f f := ⟨Eq.refl _, Eq.refl _, Eq.refl _⟩

/-- Whether the classification call for a fetched item list returns
rather than raises. -/
def classifyOk (w : World) (raw : List RawItem) : Bool :=
  match w.classifyResult raw with
  | .error _ => false
  | .ok _ => true

/-- Whether the loop body for a feed runs to completion. -/
def feedOk (w : World) (f : FeedSource) : Bool :=
  match w.fetchResult f.feed_url with
  | .error _ => false
  | .ok raw => raw.isEmpty || classifyOk w raw

/-- The URLs classified relevant for a fetched item list. -/
def classifiedRelUrls (w : World) (raw : List RawItem) : List String :=
  match w.classifyResult raw with
  | .error _ => []
  | .ok filtered => (filtered.filter (fun d => d.is_relevant)).map (fun d => d.url)

/-- The URLs the loop body of a feed would try to persist. -/
def relevantUrls (w : World) (f : FeedSource) : List String :=
  match w.fetchResult f.feed_url with
  | .error _ => []
  | .ok raw => if raw.isEmpty then [] else classifiedRelUrls w raw

theorem classifyOk_err (w : World) (raw : List RawItem) (e : String)
    (h : w.classifyResult raw = Except.error e) : classifyOk w raw = false := by
  unfold classifyOk
  rw [h]

theorem classifyOk_ok (w : World) (raw : List RawItem) (filtered : List ItemData)
    (h : w.classifyResult raw = Except.ok filtered) : classifyOk w raw = true := by
  unfold classifyOk
  rw [h]

theorem feedOk_err (w : World) (f : FeedSource) (e : String)
    (h : w.fetchResult f.feed_url = Except.error e) : feedOk w f = false := by
  unfold feedOk
  rw [h]

theorem feedOk_ok (w : World) (f : FeedSource) (raw : List RawItem)
    (h : w.fetchResult f.feed_url = Except.ok raw) :
    feedOk w f = (raw.isEmpty || classifyOk w raw) := by
  unfold feedOk
  rw [h]

theorem classifiedRelUrls_err (w : World) (raw : List RawItem) (e : String)
    (h : w.classifyResult raw = Except.error e) : classifiedRelUrls w raw = [] := by
  unfold classifiedRelUrls
  rw [h]

theorem classifiedRelUrls_ok (w : World) (raw : List RawItem) (filtered : List ItemData)
    (h : w.classifyResult raw = Except.ok filtered) :
    classifiedRelUrls w raw = (filtered.filter (fun d => d.is_relevant)).map (fun d => d.url) := by
  unfold classifiedRelUrls
  rw [h]

theorem relevantUrls_err (w : World) (f : FeedSource) (e : String)
    (h : w.fetchResult f.feed_url = Except.error e) : relevantUrls w f = [] := by
  unfold relevantUrls
  rw [h]

theorem relevantUrls_ok (w : World) (f : FeedSource) (raw : List RawItem)
    (h : w.fetchResult f.feed_url = Except.ok raw) :
    relevantUrls w f = if raw.isEmpty then [] else classifiedRelUrls w raw := by
  unfold relevantUrls
  rw [h]

theorem feedOk_congr (w : World) (f g : FeedSource) (h : SameKey f g) :
    feedOk w f = feedOk w g := by
  unfold feedOk
  rw [h.2.1]

theorem relevantUrls_congr (w : World) (f g : FeedSource) (h : SameKey f g) :
    relevantUrls w f = relevantUrls w g := by
  unfold relevantUrls
  rw [h.2.1]

theorem saveItems_cons_notrel (fid : Nat) (d : ItemData) (ds : List ItemData) (acc : RunAcc)
    (h : d.is_relevant = false) :
    saveItems fid (d :: ds) acc = saveItems fid ds acc := by
  conv_lhs => unfold saveItems
  simp [h]

theorem saveItems_cons_dup (fid : Nat) (d : ItemData) (ds : List ItemData) (acc : RunAcc)
    (hrel : d.is_relevant = true)
    (hdup : acc.stored.any (fun it => it.url = d.url) = true) :
    saveItems fid (d :: ds) acc = saveItems fid ds acc := by
  conv_lhs => unfold saveItems
  simp [hrel, hdup]

theorem saveItems_cons_new (fid : Nat) (d : ItemData) (ds : List ItemData) (acc : RunAcc)
    (hrel : d.is_relevant = true)
    (hnew : acc.stored.any (fun it => it.url = d.url) = false) :
    saveItems fid (d :: ds) acc =
      saveItems fid ds
        { acc with
          stored := acc.stored ++ [mkFeedItem fid acc.tick d]
          relevant := acc.relevant + 1
          tick := acc.tick + 1 } := by
  conv_lhs => unfold saveItems
  simp [hrel, hnew]

theorem saveItems_stored_extends (fid : Nat) (ds : List ItemData) :
    ∀ acc : RunAcc, ∃ tail, (saveItems fid ds acc).stored = acc.stored ++ tail := by
  induction ds with
  | nil => intro acc; exact ⟨[], by simp [saveItems]⟩
  | cons d rest ih =>
    intro acc
    rcases hrel : d.is_relevant with _ | _
    · rw [saveItems_cons_notrel fid d rest acc hrel]
      exact ih acc
    · rcases hdup : acc.stored.any (fun it => it.url = d.url) with _ | _
      · rw [saveItems_cons_new fid d rest acc hrel hdup]
        obtain ⟨tail, ht⟩ := ih
          { acc with
            stored := acc.stored ++ [mkFeedItem fid acc.tick d]
            relevant := acc.relevant + 1
            tick := acc.tick + 1 }
        exact ⟨[mkFeedItem fid acc.tick d] ++ tail, by rw [ht]; simp⟩
      · rw [saveItems_cons_dup fid d rest acc hrel hdup]
        exact ih acc

theorem saveItems_complete (fid : Nat) (ds : List ItemData) :
    ∀ acc : RunAcc, ∀ d ∈ ds, d.is_relevant = true →
      d.url ∈ (saveItems fid ds acc).stored.map (fun it => it.url) := by
  induction ds with
  | nil => intro acc d hd; exact absurd hd (List.not_mem_nil d)
  | cons d0 rest ih =>
    intro acc d hd hrel
    rcases List.mem_cons.mp hd with rfl | hdrest
    · -- d is the head
      rcases hdup : acc.stored.any (fun it => it.url = d.url) with _ | _
      · rw [saveItems_cons_new fid d rest acc hrel hdup]
        obtain ⟨tail, ht⟩ := saveItems_stored_extends fid rest
          { acc with
            stored := acc.stored ++ [mkFeedItem fid acc.tick d]
            relevant := acc.relevant + 1
            tick := acc.tick + 1 }
        rw [ht]
        simp [mkFeedItem]
      · rw [saveItems_cons_dup fid d rest acc hrel hdup]
        obtain ⟨it, hit, hurl⟩ := List.any_eq_true.mp hdup
        obtain ⟨tail, ht⟩ := saveItems_stored_extends fid rest acc
        rw [ht]
        rw [List.map_append]
        exact List.mem_append_left _ (List.mem_map.mpr ⟨it, hit, of_decide_eq_true hurl⟩)
    · -- d is in the rest
      rcases hrel0 : d0.is_relevant with _ | _
      · rw [saveItems_cons_notrel fid d0 rest acc hrel0]
        exact ih acc d hdrest hrel
      · rcases hdup : acc.stored.any (fun it => it.url = d0.url) with _ | _
        · rw [saveItems_cons_new fid d0 rest acc hrel0 hdup]
          exact ih _ d hdrest hrel
        · rw [saveItems_cons_dup fid d0 rest acc hrel0 hdup]
          exact ih acc d hdrest hrel

theorem saveItems_noop (fid : Nat) (ds : List ItemData) :
    ∀ acc : RunAcc,
      (∀ d ∈ ds, d.is_relevant = true → d.url ∈ acc.stored.map (fun it => it.url)) →
      saveItems fid ds acc = acc := by
  induction ds with
  | nil => intro acc _; rfl
  | cons d rest ih =>
    intro acc hmem
    rcases hrel : d.is_relevant with _ | _
    · rw [saveItems_cons_notrel fid d rest acc hrel]
      exact ih acc (fun x hx => hmem x (List.mem_cons_of_mem d hx))
    · have hurl : d.url ∈ acc.stored.map (fun it => it.url) :=
        hmem d (List.mem_cons_self d rest) hrel
      obtain ⟨it, hit, hiturl⟩ := List.mem_map.mp hurl
      have hdup : acc.stored.any (fun it => it.url = d.url) = true :=
        List.any_eq_true.mpr ⟨it, hit, decide_eq_true hiturl⟩
      rw [saveItems_cons_dup fid d rest acc hrel hdup]
      exact ih acc (fun x hx => hmem x (List.mem_cons_of_mem d hx))

theorem processFeed1_aborted_stored (w : World) (f : FeedSource) (acc : RunAcc)
    (e : String) (acc2 : RunAcc)
    (h : processFeed1 w f acc = FeedStep.aborted e acc2) : acc2.stored = acc.stored := by
  rcases hf : w.fetchResult f.feed_url with e2 | raw
  · rw [processFeed1_fetch_err w f acc e2 hf] at h
    cases h
    rfl
  · rcases hemp : raw.isEmpty with _ | _
    · rcases hc : w.classifyResult raw with e2 | filtered
      · rw [processFeed1_classify_err w f acc raw e2 hf hemp hc] at h
        cases h
        rfl
      · rw [processFeed1_classify_ok w f acc raw filtered hf hemp hc] at h
        exact FeedStep.noConfusion h
    · rw [processFeed1_empty w f acc raw hf hemp] at h
      exact FeedStep.noConfusion h

theorem processFeed1_done_stored (w : World) (f : FeedSource) (acc : RunAcc)
    (f2 : FeedSource) (acc2 : RunAcc)
    (h : processFeed1 w f acc = FeedStep.done f2 acc2) :
    ∃ tail, acc2.stored = acc.stored ++ tail := by
  rcases hf : w.fetchResult f.feed_url with e2 | raw
  · rw [processFeed1_fetch_err w f acc e2 hf] at h
    exact FeedStep.noConfusion h
  · rcases hemp : raw.isEmpty with _ | _
    · rcases hc : w.classifyResult raw with e2 | filtered
      · rw [processFeed1_classify_err w f acc raw e2 hf hemp hc] at h
        exact FeedStep.noConfusion h
      · rw [processFeed1_classify_ok w f acc raw filtered hf hemp hc] at h
        cases h
        obtain ⟨tail, ht⟩ := saveItems_stored_extends f.id filtered (bumpAcc acc raw.length)
        exact ⟨tail, ht⟩
    · rw [processFeed1_empty w f acc raw hf hemp] at h
      cases h
      exact ⟨[], by simp⟩

theorem feedOk_of_done (w : World) (f : FeedSource) (acc : RunAcc)
    (f2 : FeedSource) (acc2 : RunAcc)
    (h : processFeed1 w f acc = FeedStep.done f2 acc2) : feedOk w f = true := by
  rcases hf : w.fetchResult f.feed_url with e2 | raw
  · rw [processFeed1_fetch_err w f acc e2 hf] at h
    exact FeedStep.noConfusion h
  · rcases hemp : raw.isEmpty with _ | _
    · rcases hc : w.classifyResult raw with e2 | filtered
      · rw [processFeed1_classify_err w f acc raw e2 hf hemp hc] at h
        exact FeedStep.noConfusion h
      · rw [feedOk_ok w f raw hf, classifyOk_ok w raw filtered hc]
        simp
    · rw [feedOk_ok w f raw hf, hemp]
      rfl

theorem processFeed1_done_sameKey (w : World) (f : FeedSource) (acc : RunAcc)
    (f2 : FeedSource) (acc2 : RunAcc)
    (h : processFeed1 w f acc = FeedStep.done f2 acc2) : SameKey f f2 := by
  rcases hf : w.fetchResult f.feed_url with e2 | raw
  · rw [processFeed1_fetch_err w f acc e2 hf] at h
    exact FeedStep.noConfusion h
  · rcases hemp : raw.isEmpty with _ | _
    · rcases hc : w.classifyResult raw with e2 | filtered
      · rw [processFeed1_classify_err w f acc raw e2 hf hemp hc] at h
        exact FeedStep.noConfusion h
      · rw [processFeed1_classify_ok w f acc raw filtered hf hemp hc] at h
        cases h
        exact ⟨Eq.refl _, Eq.refl _, Eq.refl _⟩
    · rw [processFeed1_empty w f acc raw hf hemp] at h
      cases h
      exact SameKey.rfl f

theorem processFeed1_complete (w : World) (f : FeedSource) (acc : RunAcc)
    (f2 : FeedSource) (acc2 : RunAcc)
    (h : processFeed1 w f acc = FeedStep.done f2 acc2) :
    ∀ u ∈ relevantUrls w f, u ∈ acc2.stored.map (fun it => it.url) := by
  rcases hf : w.fetchResult f.feed_url with e2 | raw
  · rw [relevantUrls_err w f e2 hf]
    intro u hu
    exact absurd hu (List.not_mem_nil u)
  · rcases hemp : raw.isEmpty with _ | _
    · rcases hc : w.classifyResult raw with e2 | filtered
      · rw [processFeed1_classify_err w f acc raw e2 hf hemp hc] at h
        exact FeedStep.noConfusion h
      · rw [processFeed1_classify_ok w f acc raw filtered hf hemp hc] at h
        cases h
        rw [relevantUrls_ok w f raw hf, if_neg (by simp [hemp]),
          classifiedRelUrls_ok w raw filtered hc]
        intro u hu
        obtain ⟨d, hdf, rfl⟩ := List.mem_map.mp hu
        obtain ⟨hd, hrel⟩ := List.mem_filter.mp hdf
        exact saveItems_complete f.id filtered (bumpAcc acc raw.length) d hd hrel
    · rw [relevantUrls_ok w f raw hf, hemp]
      intro u hu
      simp at hu

theorem processFeed1_noop (w : World) (f : FeedSource) (acc : RunAcc)
    (hok : feedOk w f = true)
    (hcompl : ∀ u ∈ relevantUrls w f, u ∈ acc.stored.map (fun it => it.url)) :
    ∃ f2 acc2, processFeed1 w f acc = FeedStep.done f2 acc2 ∧ acc2.stored = acc.stored := by
  rcases hf : w.fetchResult f.feed_url with e2 | raw
  · rw [feedOk_err w f e2 hf] at hok
    exact Bool.noConfusion hok
  · rcases hemp : raw.isEmpty with _ | _
    · rcases hc : w.classifyResult raw with e2 | filtered
      · rw [feedOk_ok w f raw hf, hemp, classifyOk_err w raw e2 hc] at hok
        exact Bool.noConfusion hok
      · refine ⟨_, _, processFeed1_classify_ok w f acc raw filtered hf hemp hc, ?_⟩
        have hnm : ∀ d ∈ filtered, d.is_relevant = true →
            d.url ∈ (bumpAcc acc raw.length).stored.map (fun it => it.url) := by
          intro d hd hrel
          apply hcompl
          rw [relevantUrls_ok w f raw hf, if_neg (by simp [hemp]),
            classifiedRelUrls_ok w raw filtered hc]
          exact List.mem_map.mpr ⟨d, List.mem_filter.mpr ⟨hd, by simp [hrel]⟩, rfl⟩
        have hsave := saveItems_noop f.id filtered (bumpAcc acc raw.length) hnm
        rw [hsave]
        rfl
    · exact ⟨f, _, processFeed1_empty w f acc raw hf hemp, rfl⟩

theorem processFeeds_result_stored (w : World) (feeds : List FeedSource) :
    ∀ (acc : RunAcc) (r : Option String) (fs2 : List FeedSource) (accF : RunAcc),
      processFeeds w feeds acc = (r, fs2, accF) →
      ∃ tail, accF.stored = acc.stored ++ tail := by
  induction feeds with
  | nil =>
    intro acc r fs2 accF hp
    rw [processFeeds_nil] at hp
    cases hp
    exact ⟨[], by simp⟩
  | cons f rest ih =>
    intro acc r fs2 accF hp
    rcases hs : processFeed1 w f acc with ⟨e, acc2⟩ | ⟨f2, acc2⟩
    · rw [processFeeds_cons_aborted w f rest acc acc2 e hs] at hp
      injection hp with hp1 hp2
      injection hp2 with hp2 hp3
      rw [← hp3]
      exact ⟨[], by rw [processFeed1_aborted_stored w f acc e acc2 hs]; simp⟩
    · rcases hrest : processFeeds w rest acc2 with ⟨r2, fs3, a2⟩
      rw [processFeeds_cons_done w f f2 rest acc acc2 r2 fs3 a2 hs hrest] at hp
      injection hp with hp1 hp2
      injection hp2 with hp2 hp3
      rw [← hp3]
      obtain ⟨t1, ht1⟩ := processFeed1_done_stored w f acc f2 acc2 hs
      obtain ⟨t2, ht2⟩ := ih acc2 r2 fs3 a2 hrest
      exact ⟨t1 ++ t2, by rw [ht2, ht1, List.append_assoc]⟩

theorem processFeeds_ok_inv (w : World) (feeds : List FeedSource) :
    ∀ (acc : RunAcc) (fs2 : List FeedSource) (accF : RunAcc),
      processFeeds w feeds acc = (none, fs2, accF) →
      (∀ f ∈ feeds, feedOk w f = true) ∧
      (∀ f ∈ feeds, ∀ u ∈ relevantUrls w f, u ∈ accF.stored.map (fun it => it.url)) ∧
      List.Forall₂ SameKey feeds fs2 := by
  induction feeds with
  | nil =>
    intro acc fs2 accF hp
    rw [processFeeds_nil] at hp
    cases hp
    exact ⟨fun f hf => absurd hf (List.not_mem_nil f),
      fun f hf => absurd hf (List.not_mem_nil f), List.Forall₂.nil⟩
  | cons f rest ih =>
    intro acc fs2 accF hp
    rcases hs : processFeed1 w f acc with ⟨e, acc2⟩ | ⟨f2, acc2⟩
    · rw [processFeeds_cons_aborted w f rest acc acc2 e hs] at hp
      simp at hp
    · rcases hrest : processFeeds w rest acc2 with ⟨r2, fs3, a2⟩
      rw [processFeeds_cons_done w f f2 rest acc acc2 r2 fs3 a2 hs hrest] at hp
      injection hp with hp1 hp2
      injection hp2 with hp2 hp3
      subst hp1
      subst hp2
      subst hp3
      obtain ⟨ihOk, ihCompl, ihKey⟩ := ih acc2 fs3 a2 hrest
      refine ⟨?_, ?_, ?_⟩
      · intro g hg
        rcases List.mem_cons.mp hg with rfl | hgr
        · exact feedOk_of_done w g acc f2 acc2 hs
        · exact ihOk g hgr
      · intro g hg u hu
        rcases List.mem_cons.mp hg with rfl | hgr
        · have hin := processFeed1_complete w g acc f2 acc2 hs u hu
          obtain ⟨tail, ht⟩ := processFeeds_result_stored w rest acc2 none fs3 a2 hrest
          rw [ht, List.map_append]
          exact List.mem_append_left _ hin
        · exact ihCompl g hgr u hu
      · exact List.Forall₂.cons (processFeed1_done_sameKey w f acc f2 acc2 hs) ihKey

theorem processFeeds_noop (w : World) (feeds : List FeedSource) :
    ∀ acc : RunAcc, (∀ f ∈ feeds, feedOk w f = true) →
      (∀ f ∈ feeds, ∀ u ∈ relevantUrls w f, u ∈ acc.stored.map (fun it => it.url)) →
      ∃ fs2 accF, processFeeds w feeds acc = (none, fs2, accF) ∧ accF.stored = acc.stored := by
  induction feeds with
  | nil =>
    intro acc _ _
    exact ⟨[], acc, processFeeds_nil w acc, rfl⟩
  | cons f rest ih =>
    intro acc hok hcompl
    obtain ⟨f2, acc2, hs, hst⟩ := processFeed1_noop w f acc
      (hok f (List.mem_cons_self f rest)) (hcompl f (List.mem_cons_self f rest))
    obtain ⟨fs3, a2, hrest, hst2⟩ := ih acc2
      (fun g hg => hok g (List.mem_cons_of_mem f hg))
      (fun g hg u hu => by
        rw [hst]
        exact hcompl g (List.mem_cons_of_mem f hg) u hu)
    exact ⟨f2 :: fs3, a2,
      processFeeds_cons_done w f f2 rest acc acc2 none fs3 a2 hs hrest,
      by rw [hst2, hst]⟩

theorem forall₂_mem_right {α β : Type} {R : α → β → Prop} {l₁ : List α} {l₂ : List β}
    (h : List.Forall₂ R l₁ l₂) : ∀ y ∈ l₂, ∃ x ∈ l₁, R x y := by
  induction h with
  | nil =>
    intro y hy
    exact absurd hy (List.not_mem_nil y)
  | @cons a b la lb hab hl ih =>
    intro y hy
    rcases List.mem_cons.mp hy with rfl | hy2
    · exact ⟨a, List.mem_cons_self a la, hab⟩
    · obtain ⟨x, hx, hxy⟩ := ih y hy2
      exact ⟨x, List.mem_cons_of_mem a hx, hxy⟩

theorem forall₂_filter_enabled {l₁ l₂ : List FeedSource}
    (h : List.Forall₂ SameKey l₁ l₂) :
    List.Forall₂ SameKey (l₁.filter (fun s => s.enabled))
      (l₂.filter (fun s => s.enabled)) := by
  induction h with
  | nil => exact List.Forall₂.nil
  | @cons a b la lb hab hl ih =>
    rw [List.filter_cons, List.filter_cons]
    have he : b.enabled = a.enabled := hab.2.2.symm
    rcases hen : a.enabled with _ | _
    · rw [hen] at he
      simp only [hen, he, if_false, Bool.false_eq_true]
      exact ih
    · rw [hen] at he
      simp only [hen, he, if_true]
      exact List.Forall₂.cons hab ih

theorem selectFeeds_none (l : List FeedSource) :
    selectFeeds none l = l.filter (fun s => s.enabled) := rfl

theorem mergeSources_sameKey (orig upd : List FeedSource)
    (hnd : (orig.map (fun s => s.id)).Nodup)
    (hupd : ∀ u ∈ upd, ∃ s ∈ orig, SameKey s u) :
    List.Forall₂ SameKey orig (mergeSources orig upd) := by
  unfold mergeSources
  rw [List.forall₂_map_right_iff]
  rw [List.forall₂_same]
  intro s hs
  rcases hfind : upd.find? (fun u => u.id = s.id) with _ | u
  · rw [hfind]
    exact SameKey.rfl s
  · rw [hfind]
    have hu : u ∈ upd := List.mem_of_find?_eq_some hfind
    have hid : u.id = s.id := by
      have h2 := List.find?_some hfind
      simpa using h2
    obtain ⟨s2, hs2, hkey⟩ := hupd u hu
    have hss : s2 = s :=
      List.inj_on_of_nodup_map hnd hs2 hs (hkey.1.trans hid)
    exact hss ▸ hkey

/-- C5: persistence is idempotent on the item URL.  First, for every
relevant item whose URL already has a stored row, the save loop creates
no new row and leaves the accumulator — every existing row included —
unchanged.  Second, running the pipeline a second time (on a later
fresh date, as the unique run_date column requires) over an unchanged
world leaves the persisted item rows exactly as after the first run, so
the persisted item count after the second run equals the count after
the first. -/
theorem c5_persistence_idempotent
    (w : World) (today1 today2 t0 t1 : Nat) (st st1 : DBState)
    (hnd : (st.sources.map (fun s => s.id)).Nodup)
    (h1 : ∀ l ∈ st.logs, l.run_date ≠ today1)
    (h2 : ∀ l ∈ st1.logs, l.run_date ≠ today2)
    (hrun1 : run_daily_processing w none today1 t0 st = RunResult.ok st1) :
    (∀ (fid : Nat) (d : ItemData) (ds : List ItemData) (acc : RunAcc),
        d.is_relevant = true → (∃ it ∈ acc.stored, it.url = d.url) →
        saveItems fid (d :: ds) acc = saveItems fid ds acc) ∧
    ∃ st2, run_daily_processing w none today2 t1 st1 = RunResult.ok st2 ∧
      st2.items = st1.items := by
  constructor
  · intro fid d ds acc hrel hex
    obtain ⟨it, hit, hurl⟩ := hex
    exact saveItems_cons_dup fid d ds acc hrel
      (List.any_eq_true.mpr ⟨it, hit, decide_eq_true hurl⟩)
  · have hany1 := any_date_false h1
    rcases hp1 : processFeeds w (selectFeeds none st.sources) (initAcc t0 st)
      with ⟨err, fs2, accF⟩
    rcases err with _ | e
    · have hr := run_eq_ok w none today1 t0 st fs2 accF hany1 hp1
      rw [hr] at hrun1
      injection hrun1 with hst1x
      have hst1 : st1 =
          { sources := mergeSources st.sources fs2
            items := accF.stored
            logs := st.logs ++
              [successLog today1 t0 (selectFeeds none st.sources).length accF] } := hst1x.symm
      obtain ⟨ihOk, ihCompl, ihKey⟩ := processFeeds_ok_inv w (selectFeeds none st.sources)
        (initAcc t0 st) fs2 accF hp1
      have hmem : ∀ u ∈ fs2, ∃ s ∈ st.sources, SameKey s u := by
        intro u hu
        obtain ⟨x, hx, hxy⟩ := forall₂_mem_right ihKey u hu
        rw [selectFeeds_none] at hx
        exact ⟨x, List.mem_of_mem_filter hx, hxy⟩
      have hsrcKey : List.Forall₂ SameKey st.sources st1.sources := by
        rw [hst1]
        exact mergeSources_sameKey st.sources fs2 hnd hmem
      have hselKey : List.Forall₂ SameKey (selectFeeds none st.sources)
          (selectFeeds none st1.sources) := by
        rw [selectFeeds_none, selectFeeds_none]
        exact forall₂_filter_enabled hsrcKey
      have hitems : st1.items = accF.stored := by rw [hst1]
      have hok2 : ∀ g ∈ selectFeeds none st1.sources, feedOk w g = true := by
        intro g hg
        obtain ⟨x, hx, hxy⟩ := forall₂_mem_right hselKey g hg
        rw [← feedOk_congr w x g hxy]
        exact ihOk x hx
      have hcompl2 : ∀ g ∈ selectFeeds none st1.sources,
          ∀ u ∈ relevantUrls w g, u ∈ (initAcc t1 st1).stored.map (fun it => it.url) := by
        intro g hg u hu
        obtain ⟨x, hx, hxy⟩ := forall₂_mem_right hselKey g hg
        rw [← relevantUrls_congr w x g hxy] at hu
        have hin := ihCompl x hx u hu
        show u ∈ st1.items.map (fun it => it.url)
        rw [hitems]
        exact hin
      obtain ⟨fs3, accF2, hp2, hst2⟩ := processFeeds_noop w (selectFeeds none st1.sources)
        (initAcc t1 st1) hok2 hcompl2
      have hany2 := any_date_false h2
      have hr2 := run_eq_ok w none today2 t1 st1 fs3 accF2 hany2 hp2
      refine ⟨_, hr2, ?_⟩
      show accF2.stored = st1.items
      rw [hst2]
      rfl
    · have hr := run_eq_raised w none today1 t0 st e fs2 accF hany1 hp1
      rw [hr] at hrun1
      exact RunResult.noConfusion hrun1

/-- Concrete scenario for the C5 witness: one enabled source with one
relevant item, run on date 0 and again on date 1 over the same world. -/
def srcC5 : FeedSource :=
  { id := 7, feed_url := "http://fe", name := "E", enabled := true, last_fetched := none }

def rawC5 : RawItem :=
  { url := "http://fe/1", title := "e1", content := none, summary := none,
    published_date := none, source_feed_id := 7 }

def dC5 : ItemData :=
  { url := "http://fe/1", title := "e1", content := none, summary := none,
    published_date := none, is_relevant := true, reasoning := "r" }

def wC5 : World :=
  { fetchResult := fun _ => Except.ok [rawC5], classifyResult := fun _ => Except.ok [dC5] }

def stC5 : DBState := { sources := [srcC5], items := [], logs := [] }

def itemC5 : FeedItem :=
  { url := "http://fe/1", title := "e1", content := "", summary := "",
    published_date := none, source_feed_id := 7, is_relevant := some true,
    relevance_reasoning := none, processed_at := some 1 }

def srcC5f : FeedSource :=
  { id := 7, feed_url := "http://fe", name := "E", enabled := true, last_fetched := some 2 }

def logC5s : ProcessingLog :=
  { run_date := 0, feeds_processed := 1, items_fetched := 1, items_relevant := 1,
    items_priority_suggested := 0, api_calls_made := 1, started_at := some 0,
    completed_at := some 3, status := "success", error_message := none }

/-- State after the first run of the C5 witness scenario. -/
def stC5after : DBState :=
  { sources := [srcC5f], items := [itemC5], logs := [logC5s] }

/-- An accumulator that already stores the row for the URL of dC5. -/
def accC5dup : RunAcc :=
  { stored := [itemC5], fetched := 0, relevant := 0, apiCalls := 0, tick := 9 }

/-- Witness for C5: the skip branch at a concrete duplicate URL, and
the concrete second run preserving the item rows. -/
theorem c5_persistence_idempotent_witness :
    saveItems 7 [dC5] accC5dup = saveItems 7 [] accC5dup ∧
    ∃ st2, run_daily_processing wC5 none 1 10 stC5after = RunResult.ok st2 ∧
      st2.items = stC5after.items := by
  have h := c5_persistence_idempotent wC5 0 1 0 10 stC5 stC5after
    (by simp [stC5])
    (by intro l hl; simp [stC5] at hl)
    (by
      intro l hl
      simp [stC5after] at hl
      rw [hl]
      decide)
    rfl
  exact ⟨h.1 7 dC5 [] accC5dup rfl ⟨itemC5, by simp [accC5dup], rfl⟩, h.2⟩

/-! ### Claim C10 -/

/-- C10: calling fetch_feed or fetch_all_feeds without having entered
the async context manager (no session) raises RuntimeError before any
network or parse work is attempted — the result does not depend on the
oracle at all — and with the session entered neither ever raises, so
the missing session is the one case in which the fetcher raises. -/
theorem c10_session_guard (w : FetchWorld) (src : String) (srcs : List String) :
    fetch_feed w false src = Except.error PyError.runtimeError ∧
    fetch_all_feeds w false srcs = Except.error PyError.runtimeError ∧
    (fetch_feed w true src).isOk = true ∧
    (fetch_all_feeds w true srcs).isOk = true := by
  refine ⟨rfl, rfl, ?_, rfl⟩
  unfold fetch_feed
  simp [Except.isOk, Except.toBool]

end Eratosthenes
